import Mathlib

set_option maxHeartbeats 1600000

/-!
Shallow embedding of the QSAR data-source preprocessing pipeline
(src/notebooks/datasource.py).

Modelling conventions:

* A pandas DataFrame is a `DF`: an explicit column list plus a list of rows,
  each row an association list from column name to `Val`.
* Cell values (`Val`) are strings, rationals (for the numeric/float cells;
  exact rational arithmetic stands in for IEEE floats), booleans, or null
  (pandas NaN/None).
* `np.std` is the population standard deviation.  Since square roots are
  irrational in general we represent the stored standard deviation by its
  square, the population variance `popVar`.  Every use the pipeline makes of
  it (the threshold test `std > 1` and equality of stored values across
  cleaning passes) is preserved by squaring, because squaring is strictly
  monotone on the nonnegative reals.
* `pd.merge` with no explicit keys joins on all columns common to both
  frames; null key values never match.  The merged row order is modelled as
  left-row order; pandas groups inner-join output rows by key in order of
  first appearance in the left frame, which selects the same first row per
  group and hence the same final table after `groupby(...).head(1)`.
* `groupby` drops null group keys; group-key order does not affect the final
  table (the merge output order is governed by the left frame), so group
  keys are listed in order of appearance rather than sorted.
-/

inductive Val where
  | str (s : String)
  | num (q : ℚ)
  | bool (b : Bool)
  | null
deriving DecidableEq

abbrev Row := List (String × Val)

/-- Cell lookup in a row: the value of the first entry whose key matches,
`Val.null` when the column is absent. -/
def Row.get : Row → String → Val
  | [], _ => Val.null
  | (k, v) :: r, c => if k = c then v else Row.get r c

/-- A pandas DataFrame: column names plus rows (association lists). -/
structure DF where
  cols : List String
  rows : List Row
deriving DecidableEq

/-- `astype(float)` on a cell: numeric cells give their value; the claims
only exercise numeric (or null, coerced to 0) activity cells. -/
def Val.toRat : Val → ℚ
  | Val.num q => q
  | _ => 0

/-- Insertion of an element into a sorted list of rationals. -/
def insertQ (x : ℚ) : List ℚ → List ℚ
  | [] => [x]
  | y :: ys => if x ≤ y then x :: y :: ys else y :: insertQ x ys

/-- Sort a list of rationals ascending (insertion sort). -/
def sortQ : List ℚ → List ℚ
  | [] => []
  | x :: xs => insertQ x (sortQ xs)

def listSum (l : List ℚ) : ℚ := l.foldr (· + ·) 0

/-- Arithmetic mean (0 on the empty list, which never occurs for groups). -/
def meanQ (l : List ℚ) : ℚ := listSum l / l.length

/-- Population variance: the square of `np.std` (divide by N, not N-1). -/
def popVar (l : List ℚ) : ℚ :=
  listSum (l.map (fun x => (x - meanQ l) ^ 2)) / l.length

/-- `np.median`: middle element of the sorted list, or the mean of the two
middle elements for even length. -/
def medianQ (l : List ℚ) : ℚ :=
  let s := sortQ l
  let n := s.length
  if n % 2 = 1 then s.getD (n / 2) 0
  else (s.getD (n / 2 - 1) 0 + s.getD (n / 2) 0) / 2

/-- Which concrete `DataSource` subclass an instance is
(`type(data_source) is ChEMBLApiDataSource` dispatch). The repository defines
one concrete subclass; anything else is unrecognized. -/
inductive SourceKind where
  | chemblApi
  | unrecognized (tyName : String)
deriving DecidableEq

/-- The fields of a data-source object that `Preprocessing.clean_dataset`
reads: its concrete class, its `bioactivities_df` table and its column-name
metadata. -/
structure DataSource where
  kind : SourceKind
  bioactivities_df : DF
  compound_id_column : String
  activity_column : String
  smiles_column : String
deriving DecidableEq

structure Preprocessing where
  activity_column : String := "median_activity_value"
deriving DecidableEq

/-- `Preprocessing._mark_to_remove`: per-group summary Series.  `data` is the
group's rows; `activity_column` the provider's activity column.  The
`standard_deviation` cell stores the squared deviation (see module comment). -/
def Preprocessing.mark_to_remove (p : Preprocessing) (data : List Row)
    (activity_column : String) : Row :=
  let activity_value := data.map (fun r => (Row.get r activity_column).toRat)
  let number_compounds := data.length
  [("number_compounds", Val.num number_compounds),
   ("standard_deviation", Val.num (popVar activity_value)),
   (p.activity_column, Val.num (medianQ activity_value)),
   ("duplicated", Val.bool (decide (number_compounds > 1))),
   ("mark_to_remove", Val.bool (decide (popVar activity_value > 1)))]

/-- `Preprocessing._default_filter_chembl`: three successive row filters
(relation must be "=", data_validity_comment null, pchembl_value non-null). -/
def Preprocessing.default_filter_chembl (_p : Preprocessing) (bioactivities_df : DF) : DF :=
  let df1 : DF := { bioactivities_df with
    rows := bioactivities_df.rows.filter
      (fun r => Row.get r "relation" == Val.str "=") }
  let df2 : DF := { df1 with
    rows := df1.rows.filter
      (fun r => Row.get r "data_validity_comment" == Val.null) }
  { df2 with
    rows := df2.rows.filter
      (fun r => !(Row.get r "pchembl_value" == Val.null)) }

/-- The combined validity predicate of the three chembl filters (written in
the order that composing the three `filter`s produces). -/
def chemblValidRow (r : Row) : Bool :=
  !(Row.get r "pchembl_value" == Val.null) &&
  ((Row.get r "data_validity_comment" == Val.null) &&
    (Row.get r "relation" == Val.str "="))

/-- The distinct non-null group keys of `groupby(cid)` (null keys dropped). -/
def groupKeys (cid : String) (rows : List Row) : List Val :=
  ((rows.map (fun r => Row.get r cid)).filter (fun v => v ≠ Val.null)).dedup

/-- The rows of the group with key `k`. -/
def groupRows (cid : String) (k : Val) (rows : List Row) : List Row :=
  rows.filter (fun r => Row.get r cid == k)

/-- The five summary columns produced by `_mark_to_remove`, in order. -/
def sumColNames (acol : String) : List String :=
  ["number_compounds", "standard_deviation", acol, "duplicated", "mark_to_remove"]

/-- One row of `grouped_dataset.reset_index()`: the group key followed by the
group's summary. -/
def Preprocessing.groupSummaryRow (p : Preprocessing) (cid acol : String)
    (rows : List Row) (k : Val) : Row :=
  (cid, k) :: p.mark_to_remove (groupRows cid k rows) acol

/-- `groupby(cid).apply(mark_to_remove).reset_index()` as a DataFrame.

Modelling limit: this carries the summary schema compositionally even when
there are zero groups.  Real pandas never calls the applied function on a
zero-group frame and so never materializes these columns, which makes the
downstream merge or the `mark_to_remove` column access raise on an empty
raw table; that error path is not modelled here, and nothing proved below
about an empty table relies on this definition. -/
def Preprocessing.groupedSummaries (p : Preprocessing) (cid acol : String)
    (rows : List Row) : DF :=
  { cols := cid :: sumColNames p.activity_column,
    rows := (groupKeys cid rows).map (p.groupSummaryRow cid acol rows) }

/-- Projection of a row onto a list of columns. -/
def restrictRow (cols : List String) (r : Row) : Row :=
  cols.map (fun c => (c, Row.get r c))

/-- A pair of rows agrees (non-null) on every listed column. -/
def rowsMatch (common : List String) (a b : Row) : Bool :=
  common.all (fun c =>
    (Row.get a c == Row.get b c) && !(Row.get a c == Val.null))

/-- `pd.merge(l, r)`: inner join on all common columns; result columns are
the left columns followed by the right-only columns; each matched pair
contributes the left row extended with the right-only cells.

Modelling limits: real `pd.merge` raises `MergeError` when the frames share
no columns (here an empty common set degenerates to a cross join), and some
pandas versions treat equal NaN join keys as matching where this model never
matches nulls.  Neither case arises in the theorems below: whenever this
definition is reasoned about, the common columns are exactly the non-null
compound-id key (plus, on a re-clean, the five summary columns). -/
def DF.merge (l r : DF) : DF :=
  let common := l.cols.filter (fun c => decide (c ∈ r.cols))
  let rightOnly := r.cols.filter (fun c => decide (c ∉ common))
  { cols := l.cols ++ rightOnly,
    rows := (l.rows.map (fun a =>
      (r.rows.filter (fun b => rowsMatch common a b)).map
        (fun b => a ++ restrictRow rightOnly b))).flatten }

/-- `groupby(cid).head(1)` worker: keep each row whose (non-null) key has not
been seen yet. -/
def headOneAux (cid : String) : List Val → List Row → List Row
  | _, [] => []
  | seen, r :: rs =>
    if Row.get r cid = Val.null then headOneAux cid seen rs
    else if Row.get r cid ∈ seen then headOneAux cid seen rs
    else r :: headOneAux cid (Row.get r cid :: seen) rs

/-- `groupby(cid).head(1)`: the first row of each (non-null-keyed) group, in
order of first appearance. -/
def headOne (cid : String) (rows : List Row) : List Row :=
  headOneAux cid [] rows

/-- `Preprocessing.clean_dataset`: dispatch on the concrete source class,
filter, group-and-summarize, merge, drop marked groups, keep one row per
compound. -/
def Preprocessing.clean_dataset (p : Preprocessing) (data_source : DataSource) :
    Except String DF :=
  match data_source.kind with
  | SourceKind.chemblApi =>
    let bioactivities_df := p.default_filter_chembl data_source.bioactivities_df
    let grouped_dataset := p.groupedSummaries data_source.compound_id_column
      data_source.activity_column bioactivities_df.rows
    let merged_df := DF.merge bioactivities_df grouped_dataset
    let kept := merged_df.rows.filter
      (fun r => Row.get r "mark_to_remove" == Val.bool false)
    Except.ok { cols := merged_df.cols,
                rows := headOne data_source.compound_id_column kept }
  | SourceKind.unrecognized _ => Except.error "Data source not recognized"

/-- A value of a fetched ChEMBL record: either a scalar cell or a nested
sub-record (e.g. `ligand_efficiency`). -/
inductive RecVal where
  | atom (v : Val)
  | nested (sub : List (String × Val))
deriving DecidableEq

/-- A fetched record (`compound_dict`): ordered key/value pairs. -/
abbrev CompoundDict := List (String × RecVal)

/-- Scalar view of a record value (a nested sub-record is not a scalar). -/
def RecVal.toVal : RecVal → Val
  | RecVal.atom v => v
  | RecVal.nested _ => Val.null

/-- Scalar cell of a record by key; absent keys read as null. -/
def dictCell (d : CompoundDict) (k : String) : Val :=
  match d.find? (fun kv => kv.1 == k) with
  | some kv => kv.2.toVal
  | none => Val.null

/-- The `is_valid_std_type` test: there must be accepted types, the reported
measurement type must be a (string) value, and some accepted type, lower
cased, must occur as a substring of the lower-cased reported type.  (A
non-string, non-null reported type crashes the source on `.lower()`; that
case is outside the claims and reads as not valid here.) -/
def isValidStdType (standard_types : Option (List String)) (std_type : Val) : Bool :=
  match standard_types, std_type with
  | none, _ => false
  | some _, Val.null => false
  | some stl, Val.str t =>
      stl.any (fun s => decide ((s.toLower.toList) <:+: (t.toLower.toList)))
  | some _, _ => false

/-- `ChEMBLApiDataSource.__init__.get_compound_df`: a record with an accepted
measurement type becomes a one-row frame (dropping `activity_properties`,
flattening `ligand_efficiency` into prefixed columns); otherwise the record
becomes a zero-row frame that still carries the record's column names. -/
def get_compound_df (standard_types : Option (List String))
    (compound_dict : CompoundDict) : DF :=
  if isValidStdType standard_types (dictCell compound_dict "standard_type") then
    let d1 := compound_dict.filter (fun kv => !(kv.1 == "activity_properties"))
    let lig_efficiency := d1.find? (fun kv => kv.1 == "ligand_efficiency")
    let d2 := d1.filter (fun kv => !(kv.1 == "ligand_efficiency"))
    let baseCols := d2.map (fun kv => kv.1)
    let baseRow : Row := d2.map (fun kv => (kv.1, kv.2.toVal))
    match lig_efficiency with
    | some (_, RecVal.nested sub) =>
        { cols := baseCols ++ sub.map (fun kv => "ligand_efficiency_" ++ kv.1),
          rows := [baseRow ++ sub.map (fun kv => ("ligand_efficiency_" ++ kv.1, kv.2))] }
    | _ =>
        { cols := baseCols, rows := [baseRow] }
  else
    { cols := compound_dict.map (fun kv => kv.1), rows := [] }

/-- Wellformedness of a ChEMBL data source for cleaning: the concrete class
is the ChEMBL one, the compound-id column is a real column, the five summary
column names are fresh (as they are for actual ChEMBL schemas), the median
column name does not collide with the four fixed summary names, and every
row carries exactly the table's columns. -/
def WF (p : Preprocessing) (ds : DataSource) : Prop :=
  ds.kind = SourceKind.chemblApi ∧
  ds.compound_id_column ∈ ds.bioactivities_df.cols ∧
  (∀ c ∈ sumColNames p.activity_column, c ∉ ds.bioactivities_df.cols) ∧
  p.activity_column ∉ ["number_compounds", "standard_deviation", "duplicated",
    "mark_to_remove"] ∧
  (∀ r ∈ ds.bioactivities_df.rows, r.map Prod.fst = ds.bioactivities_df.cols)

/-- The activity values of group `k` among `rows`, cast to rationals. -/
def groupActivities (cid acol : String) (rows : List Row) (k : Val) : List ℚ :=
  (groupRows cid k rows).map (fun r => (Row.get r acol).toRat)

/-- Proof-side normal form of the merge/drop stages: every row with a
non-null key whose key passes `keep` is extended by `ext` of its key. -/
def selectExtend (cid : String) (keep : Val → Bool) (ext : Val → Row) :
    List Row → List Row
  | [] => []
  | a :: rs =>
    (if Row.get a cid = Val.null then []
     else if keep (Row.get a cid) then [a ++ ext (Row.get a cid)] else []) ++
    selectExtend cid keep ext rs

/-- Shape of a row of an already-cleaned table all of whose groups were
singletons: a base row followed by exactly the summary of the singleton
group consisting of the row itself. -/
def singletonShaped (p : Preprocessing) (acolIn : String) (base : List String)
    (r : Row) : Bool :=
  let a := r.take base.length
  (a.map Prod.fst == base) && (r == a ++ p.mark_to_remove [a] acolIn)

/-! ### Concrete instances used by witnesses and counterexamples -/

def chemblCols : List String :=
  ["parent_molecule_chembl_id", "canonical_smiles", "relation",
   "data_validity_comment", "pchembl_value"]

def mkChemblRow (id smiles rel : String) (validity pchembl : Val) : Row :=
  [("parent_molecule_chembl_id", Val.str id),
   ("canonical_smiles", Val.str smiles),
   ("relation", Val.str rel),
   ("data_validity_comment", validity),
   ("pchembl_value", pchembl)]

def p0 : Preprocessing := {}

/-- Example raw table: group A has variance 2/75 (kept; first row's activity
5.2 differs from the median 5.0), group B has variance 121/4 (removed),
and one row with relation "<" is filtered out before grouping. -/
def df0 : DF :=
  { cols := chemblCols,
    rows :=
      [mkChemblRow "CHEMBL_A" "CC" "=" Val.null (Val.num (26/5)),
       mkChemblRow "CHEMBL_A" "CC" "=" Val.null (Val.num 5),
       mkChemblRow "CHEMBL_A" "CC" "=" Val.null (Val.num (24/5)),
       mkChemblRow "CHEMBL_B" "CCO" "=" Val.null (Val.num 9),
       mkChemblRow "CHEMBL_B" "CCO" "=" Val.null (Val.num 20),
       mkChemblRow "CHEMBL_C" "CCN" "<" Val.null (Val.num 7)] }

def ds0 : DataSource :=
  { kind := SourceKind.chemblApi,
    bioactivities_df := df0,
    compound_id_column := "parent_molecule_chembl_id",
    activity_column := "pchembl_value",
    smiles_column := "canonical_smiles" }

def clean0 : DF :=
  match p0.clean_dataset ds0 with
  | Except.ok o => o
  | Except.error _ => { cols := [], rows := [] }

/-- The example source re-wrapped around its own cleaning output, to probe
idempotence. -/
def ds0again : DataSource := { ds0 with bioactivities_df := clean0 }

def clean0again : DF :=
  match p0.clean_dataset ds0again with
  | Except.ok o => o
  | Except.error _ => { cols := [], rows := [] }

/-- A base row for the idempotence fixed point. -/
def rowFixBase : Row := mkChemblRow "CHEMBL_A" "CC" "=" Val.null (Val.num 5)

/-- That base row extended with its own singleton-group summary. -/
def rowFix : Row := rowFixBase ++ p0.mark_to_remove [rowFixBase] "pchembl_value"

def dfFix : DF :=
  { cols := chemblCols ++ sumColNames "median_activity_value",
    rows := [rowFix] }

def dsFix : DataSource := { ds0 with bioactivities_df := dfFix }

/-- An unrecognized data source (e.g. a CSV-backed variant). -/
def dsCsv : DataSource := { ds0 with kind := SourceKind.unrecognized "CsvDataSource" }

/-- A fetched record whose reported type "IC50_fold" matches accepted "IC50"
as a substring. -/
def dTyped : CompoundDict :=
  [("molecule_chembl_id", RecVal.atom (Val.str "CHEMBL1")),
   ("standard_type", RecVal.atom (Val.str "IC50_fold")),
   ("activity_properties", RecVal.nested []),
   ("ligand_efficiency", RecVal.nested [("bei", Val.num 2)]),
   ("pchembl_value", RecVal.atom (Val.num 7))]

/-- A fetched record with an absent (null) measurement type. -/
def dUntyped : CompoundDict :=
  [("molecule_chembl_id", RecVal.atom (Val.str "CHEMBL2")),
   ("standard_type", RecVal.atom Val.null),
   ("activity_properties", RecVal.nested []),
   ("pchembl_value", RecVal.atom (Val.num 6))]

instance (p : Preprocessing) (ds : DataSource) : Decidable (WF p ds) := by
  unfold WF; infer_instance

/-! ### Basic lemmas about row lookup -/

theorem Row.get_nil (c : String) : Row.get [] c = Val.null := rfl

theorem Row.get_cons (k : String) (v : Val) (r : Row) (c : String) :
    Row.get ((k, v) :: r) c = if k = c then v else Row.get r c := rfl

theorem Row.get_append_of_mem {c : String} :
    ∀ {r₁ : Row}, c ∈ r₁.map Prod.fst → ∀ r₂ : Row,
      Row.get (r₁ ++ r₂) c = Row.get r₁ c
  | [], h, _ => by simp at h
  | (k, v) :: r, h, r₂ => by
    rcases eq_or_ne k c with hk | hk
    · simp [Row.get_cons, hk]
    · have hc : c ∈ r.map Prod.fst := by
        simpa [hk.symm] using h
      simp [Row.get_cons, hk, Row.get_append_of_mem hc r₂]

theorem Row.get_append_of_not_mem {c : String} :
    ∀ {r₁ : Row}, c ∉ r₁.map Prod.fst → ∀ r₂ : Row,
      Row.get (r₁ ++ r₂) c = Row.get r₂ c
  | [], _, _ => rfl
  | (k, v) :: r, h, r₂ => by
    have hk : k ≠ c := by
      intro hkc; exact h (by simp [hkc])
    have hc : c ∉ r.map Prod.fst := fun hm => h (by simp [hm])
    simp [Row.get_cons, hk, Row.get_append_of_not_mem hc r₂]

theorem Row.mem_keys_of_get_ne_null {c : String} :
    ∀ {r : Row}, Row.get r c ≠ Val.null → c ∈ r.map Prod.fst
  | [], h => absurd rfl h
  | (k, v) :: r, h => by
    rcases eq_or_ne k c with hk | hk
    · simp [hk]
    · have := Row.mem_keys_of_get_ne_null (r := r) (by simpa [Row.get_cons, hk] using h)
      simp [this]

theorem Row.get_append_of_ne_null {c : String} {r₁ : Row}
    (h : Row.get r₁ c ≠ Val.null) (r₂ : Row) :
    Row.get (r₁ ++ r₂) c = Row.get r₁ c :=
  Row.get_append_of_mem (Row.mem_keys_of_get_ne_null h) r₂

/-! ### The chembl filter -/

theorem default_filter_cols (p : Preprocessing) (df : DF) :
    (p.default_filter_chembl df).cols = df.cols := rfl

theorem default_filter_rows (p : Preprocessing) (df : DF) :
    (p.default_filter_chembl df).rows = df.rows.filter chemblValidRow := by
  simp only [Preprocessing.default_filter_chembl, List.filter_filter]
  rfl

/-! ### Generic list helpers -/

theorem filter_beq_of_nodup {α : Type} [DecidableEq α] {k : α} :
    ∀ {l : List α}, l.Nodup → k ∈ l → l.filter (fun x => k == x) = [k]
  | [], _, hk => by simp at hk
  | a :: l, hn, hk => by
    rcases List.mem_cons.mp hk with h | h
    · subst h
      have : l.filter (fun x => k == x) = [] := by
        refine List.filter_eq_nil_iff.mpr ?_
        intro x hx
        have : k ≠ x := fun he => (List.nodup_cons.mp hn).1 (he ▸ hx)
        simp [this]
      simp [List.filter_cons, this]
    · have hne : k ≠ a := fun he => (List.nodup_cons.mp hn).1 (he ▸ h)
      have := filter_beq_of_nodup (List.nodup_cons.mp hn).2 h
      simp [List.filter_cons, hne, this]

theorem filter_take_one_of_find? {α : Type} {p : α → Bool} {a : α} :
    ∀ {l : List α}, l.find? p = some a → (l.filter p).take 1 = [a]
  | [], h => by simp at h
  | x :: l, h => by
    by_cases hx : p x
    · rw [List.find?_cons_of_pos _ hx] at h
      simp only [Option.some.injEq] at h
      subst h
      simp [List.filter_cons, hx]
    · rw [List.find?_cons_of_neg _ hx] at h
      simpa [List.filter_cons, hx] using filter_take_one_of_find? h

theorem flatten_map_singleton {α : Type} :
    ∀ l : List α, (l.map (fun a => [a])).flatten = l
  | [] => rfl
  | a :: l => by simp [flatten_map_singleton l]

/-! ### selectExtend lemmas -/

theorem selectExtend_cons (cid : String) (keep : Val → Bool) (ext : Val → Row)
    (a : Row) (rs : List Row) :
    selectExtend cid keep ext (a :: rs) =
      (if Row.get a cid = Val.null then []
       else if keep (Row.get a cid) then [a ++ ext (Row.get a cid)] else []) ++
      selectExtend cid keep ext rs := rfl

theorem selectExtend_filter_of_not_keep {cid : String} {keep : Val → Bool}
    {ext : Val → Row} {k : Val} (hk : k = Val.null ∨ keep k = false) :
    ∀ (rows : List Row),
      (∀ a ∈ rows, Row.get (a ++ ext (Row.get a cid)) cid = Row.get a cid) →
      (selectExtend cid keep ext rows).filter (fun r => Row.get r cid == k) = []
  | [], _ => rfl
  | a :: rs, hkey => by
    have ih := selectExtend_filter_of_not_keep hk rs
      (fun b hb => hkey b (List.mem_cons_of_mem _ hb))
    rw [selectExtend_cons, List.filter_append]
    by_cases h1 : Row.get a cid = Val.null
    · simp [if_pos h1, ih]
    · rw [if_neg h1]
      by_cases h2 : keep (Row.get a cid)
      · have hne : (Row.get (a ++ ext (Row.get a cid)) cid == k) = false := by
          rw [hkey a (List.mem_cons_self a rs), beq_eq_false_iff_ne]
          intro he
          rcases hk with h | h
          · exact h1 (he.trans h)
          · rw [he, h] at h2; exact Bool.false_ne_true (h2 ▸ rfl)
        simp [if_pos h2, List.filter_cons, hne, ih]
      · simp [if_neg h2, ih]

theorem selectExtend_filter_of_keep {cid : String} {keep : Val → Bool}
    {ext : Val → Row} {k : Val} (hknn : k ≠ Val.null) (hkeep : keep k = true) :
    ∀ (rows : List Row),
      (∀ a ∈ rows, Row.get (a ++ ext (Row.get a cid)) cid = Row.get a cid) →
      (selectExtend cid keep ext rows).filter (fun r => Row.get r cid == k)
        = (rows.filter (fun r => Row.get r cid == k)).map (fun a => a ++ ext k)
  | [], _ => rfl
  | a :: rs, hkey => by
    have ih := selectExtend_filter_of_keep hknn hkeep rs
      (fun b hb => hkey b (List.mem_cons_of_mem _ hb))
    rw [selectExtend_cons, List.filter_append]
    by_cases h1 : Row.get a cid = Val.null
    · have hne : (Row.get a cid == k) = false := by
        rw [beq_eq_false_iff_ne, h1]; exact fun he => hknn he.symm
      simp [if_pos h1, ih, List.filter_cons, hne]
    · rw [if_neg h1]
      by_cases hkk : Row.get a cid = k
      · have h2 : keep (Row.get a cid) = true := hkk ▸ hkeep
        have hbeq : (Row.get (a ++ ext (Row.get a cid)) cid == k) = true := by
          rw [hkey a (List.mem_cons_self a rs), beq_iff_eq]; exact hkk
        have hbeq' : (Row.get a cid == k) = true := by rw [beq_iff_eq]; exact hkk
        rw [hkk] at hbeq
        simp [if_pos h2, hkeep, List.filter_cons, hbeq, ih, hbeq', hkk]
      · have hbeq' : (Row.get a cid == k) = false := by
          rw [beq_eq_false_iff_ne]; exact hkk
        by_cases h2 : keep (Row.get a cid)
        · have hbeq : (Row.get (a ++ ext (Row.get a cid)) cid == k) = false := by
            rw [hkey a (List.mem_cons_self a rs), beq_eq_false_iff_ne]; exact hkk
          simp [if_pos h2, List.filter_cons, hbeq, ih, hbeq']
        · simp [if_neg h2, ih, List.filter_cons, hbeq']

/-! ### headOne lemmas -/

theorem headOneAux_filter_of_seen (cid : String) (k : Val) :
    ∀ (seen : List Val) (rows : List Row), (k = Val.null ∨ k ∈ seen) →
      (headOneAux cid seen rows).filter (fun r => Row.get r cid == k) = []
  | _, [], _ => rfl
  | seen, r :: rs, hk => by
    unfold headOneAux
    by_cases h1 : Row.get r cid = Val.null
    · rw [if_pos h1]; exact headOneAux_filter_of_seen cid k seen rs hk
    · rw [if_neg h1]
      by_cases h2 : Row.get r cid ∈ seen
      · rw [if_pos h2]; exact headOneAux_filter_of_seen cid k seen rs hk
      · rw [if_neg h2, List.filter_cons]
        have hne : (Row.get r cid == k) = false := by
          rw [beq_eq_false_iff_ne]
          intro he
          rcases hk with h | h
          · exact h1 (he.trans h)
          · exact h2 (he ▸ h)
        have hkseen : k = Val.null ∨ k ∈ Row.get r cid :: seen := by
          rcases hk with h | h
          · exact Or.inl h
          · exact Or.inr (List.mem_cons_of_mem _ h)
        simp only [hne, Bool.false_eq_true, if_false]
        exact headOneAux_filter_of_seen cid k _ rs hkseen

theorem headOneAux_filter_of_new (cid : String) (k : Val) (hknn : k ≠ Val.null) :
    ∀ (seen : List Val) (rows : List Row), k ∉ seen →
      (headOneAux cid seen rows).filter (fun r => Row.get r cid == k)
        = (rows.filter (fun r => Row.get r cid == k)).take 1
  | _, [], _ => rfl
  | seen, r :: rs, hkseen => by
    unfold headOneAux
    by_cases h1 : Row.get r cid = Val.null
    · have hne : (Row.get r cid == k) = false := by
        rw [beq_eq_false_iff_ne, h1]; exact fun he => hknn he.symm
      rw [if_pos h1, List.filter_cons]
      simp only [hne, Bool.false_eq_true, if_false]
      exact headOneAux_filter_of_new cid k hknn seen rs hkseen
    · rw [if_neg h1]
      by_cases h2 : Row.get r cid ∈ seen
      · have hne : (Row.get r cid == k) = false := by
          rw [beq_eq_false_iff_ne]; exact fun he => hkseen (he ▸ h2)
        rw [if_pos h2, List.filter_cons]
        simp only [hne, Bool.false_eq_true, if_false]
        exact headOneAux_filter_of_new cid k hknn seen rs hkseen
      · rw [if_neg h2, List.filter_cons, List.filter_cons]
        by_cases hkk : Row.get r cid = k
        · have hbeq : (Row.get r cid == k) = true := by rw [beq_iff_eq]; exact hkk
          have htail : (headOneAux cid (Row.get r cid :: seen) rs).filter
              (fun r => Row.get r cid == k) = [] :=
            headOneAux_filter_of_seen cid k _ rs (Or.inr (hkk ▸ List.mem_cons_self _ _))
          simp [hbeq, htail]
        · have hbeq : (Row.get r cid == k) = false := by
            rw [beq_eq_false_iff_ne]; exact hkk
          simp only [hbeq, Bool.false_eq_true, if_false]
          exact headOneAux_filter_of_new cid k hknn _ rs
            (fun hm => (List.mem_cons.mp hm).elim (fun he => hkk he.symm) hkseen)

theorem headOneAux_subset (cid : String) :
    ∀ (seen : List Val) (rows : List Row) (r : Row),
      r ∈ headOneAux cid seen rows → r ∈ rows
  | _, [], _, h => by simp [headOneAux] at h
  | seen, a :: rs, r, h => by
    unfold headOneAux at h
    by_cases h1 : Row.get a cid = Val.null
    · rw [if_pos h1] at h
      exact List.mem_cons_of_mem _ (headOneAux_subset cid seen rs r h)
    · rw [if_neg h1] at h
      by_cases h2 : Row.get a cid ∈ seen
      · rw [if_pos h2] at h
        exact List.mem_cons_of_mem _ (headOneAux_subset cid seen rs r h)
      · rw [if_neg h2] at h
        rcases List.mem_cons.mp h with h | h
        · exact h ▸ List.mem_cons_self _ _
        · exact List.mem_cons_of_mem _ (headOneAux_subset cid _ rs r h)

theorem headOneAux_eq_self (cid : String) :
    ∀ (seen : List Val) (rows : List Row),
      (∀ r ∈ rows, Row.get r cid ≠ Val.null) →
      (rows.map (fun r => Row.get r cid)).Nodup →
      (∀ r ∈ rows, Row.get r cid ∉ seen) →
      headOneAux cid seen rows = rows
  | _, [], _, _, _ => rfl
  | seen, a :: rs, hnn, hnd, hns => by
    unfold headOneAux
    rw [if_neg (hnn a (List.mem_cons_self _ _)), if_neg (hns a (List.mem_cons_self _ _))]
    congr 1
    refine headOneAux_eq_self cid _ rs
      (fun r hr => hnn r (List.mem_cons_of_mem _ hr))
      ((List.nodup_cons.mp (by simpa using hnd)).2) ?_
    intro r hr hmem
    rcases List.mem_cons.mp hmem with he | he
    · exact (List.nodup_cons.mp (by simpa using hnd)).1
        (he ▸ List.mem_map_of_mem (fun r => Row.get r cid) hr)
    · exact hns r (List.mem_cons_of_mem _ hr) he

/-! ### Reading the summary row -/

theorem mark_get_number (p : Preprocessing) (data : List Row) (acol : String) :
    Row.get (p.mark_to_remove data acol) "number_compounds"
      = Val.num data.length := by
  simp [Preprocessing.mark_to_remove, Row.get_cons]

theorem mark_get_std (p : Preprocessing) (data : List Row) (acol : String) :
    Row.get (p.mark_to_remove data acol) "standard_deviation"
      = Val.num (popVar (data.map (fun r => (Row.get r acol).toRat))) := by
  simp [Preprocessing.mark_to_remove, Row.get_cons]

theorem mark_get_median (p : Preprocessing) (data : List Row) (acol : String)
    (hacol : p.activity_column ∉ ["number_compounds", "standard_deviation",
      "duplicated", "mark_to_remove"]) :
    Row.get (p.mark_to_remove data acol) p.activity_column
      = Val.num (medianQ (data.map (fun r => (Row.get r acol).toRat))) := by
  have h1 : ("number_compounds" : String) ≠ p.activity_column :=
    fun h => hacol (h ▸ (by simp))
  have h2 : ("standard_deviation" : String) ≠ p.activity_column :=
    fun h => hacol (h ▸ (by simp))
  simp [Preprocessing.mark_to_remove, Row.get_cons, h1, h2]

theorem mark_get_dup (p : Preprocessing) (data : List Row) (acol : String)
    (hacol : p.activity_column ∉ ["number_compounds", "standard_deviation",
      "duplicated", "mark_to_remove"]) :
    Row.get (p.mark_to_remove data acol) "duplicated"
      = Val.bool (decide (data.length > 1)) := by
  have h3 : p.activity_column ≠ "duplicated" :=
    fun h => hacol (h ▸ (by simp))
  simp [Preprocessing.mark_to_remove, Row.get_cons, h3]

theorem mark_get_mark (p : Preprocessing) (data : List Row) (acol : String)
    (hacol : p.activity_column ∉ ["number_compounds", "standard_deviation",
      "duplicated", "mark_to_remove"]) :
    Row.get (p.mark_to_remove data acol) "mark_to_remove"
      = Val.bool (decide (popVar (data.map (fun r => (Row.get r acol).toRat)) > 1)) := by
  have h3 : p.activity_column ≠ "mark_to_remove" :=
    fun h => hacol (h ▸ (by simp))
  simp [Preprocessing.mark_to_remove, Row.get_cons, h3]

theorem mark_get_ne_null (p : Preprocessing) (data : List Row) (acol : String)
    (hacol : p.activity_column ∉ ["number_compounds", "standard_deviation",
      "duplicated", "mark_to_remove"]) :
    ∀ c ∈ sumColNames p.activity_column,
      Row.get (p.mark_to_remove data acol) c ≠ Val.null := by
  intro c hc
  rcases (by simpa [sumColNames] using hc :
      c = "number_compounds" ∨ c = "standard_deviation" ∨ c = p.activity_column ∨
        c = "duplicated" ∨ c = "mark_to_remove") with h | h | h | h | h
  · rw [h, mark_get_number]; exact fun he => Val.noConfusion he
  · rw [h, mark_get_std]; exact fun he => Val.noConfusion he
  · rw [h, mark_get_median p data acol hacol]; exact fun he => Val.noConfusion he
  · rw [h, mark_get_dup p data acol hacol]; exact fun he => Val.noConfusion he
  · rw [h, mark_get_mark p data acol hacol]; exact fun he => Val.noConfusion he

theorem restrictRow_summary (p : Preprocessing) (cid : String) (k : Val)
    (data : List Row) (acolIn : String)
    (hacol : p.activity_column ∉ ["number_compounds", "standard_deviation",
      "duplicated", "mark_to_remove"])
    (hcid : cid ∉ sumColNames p.activity_column) :
    restrictRow (sumColNames p.activity_column)
        ((cid, k) :: p.mark_to_remove data acolIn)
      = p.mark_to_remove data acolIn := by
  have hc1 : cid ≠ "number_compounds" := fun h => hcid (h ▸ (by simp [sumColNames]))
  have hc2 : cid ≠ "standard_deviation" := fun h => hcid (h ▸ (by simp [sumColNames]))
  have hc3 : cid ≠ p.activity_column := fun h => hcid (h ▸ (by simp [sumColNames]))
  have hc4 : cid ≠ "duplicated" := fun h => hcid (h ▸ (by simp [sumColNames]))
  have hc5 : cid ≠ "mark_to_remove" := fun h => hcid (h ▸ (by simp [sumColNames]))
  have e1 := mark_get_number p data acolIn
  have e2 := mark_get_std p data acolIn
  have e3 := mark_get_median p data acolIn hacol
  have e4 := mark_get_dup p data acolIn hacol
  have e5 := mark_get_mark p data acolIn hacol
  show ((sumColNames p.activity_column).map
      (fun c => (c, Row.get ((cid, k) :: p.mark_to_remove data acolIn) c)))
    = p.mark_to_remove data acolIn
  simp only [sumColNames, List.map_cons, List.map_nil, Row.get_cons,
    if_neg hc1, if_neg hc2, if_neg hc3, if_neg hc4, if_neg hc5,
    e1, e2, e3, e4, e5]
  rfl

theorem popVar_singleton (v : ℚ) : popVar [v] = 0 := by
  simp [popVar, meanQ, listSum]

/-! ### The merge step under wellformedness -/

theorem merge_cols_def (l r : DF) :
    (DF.merge l r).cols = l.cols ++ r.cols.filter
      (fun c => decide (c ∉ l.cols.filter (fun c => decide (c ∈ r.cols)))) := rfl

theorem merge_rows_def (l r : DF) :
    (DF.merge l r).rows = (l.rows.map (fun a =>
      (r.rows.filter (fun b =>
        rowsMatch (l.cols.filter (fun c => decide (c ∈ r.cols))) a b)).map
        (fun b => a ++ restrictRow (r.cols.filter
          (fun c => decide (c ∉ l.cols.filter (fun c => decide (c ∈ r.cols))))) b))).flatten :=
  rfl

theorem flatten_map_eq_selectExtend {cid : String} {keep : Val → Bool}
    {ext : Val → Row} {f : Row → List Row} :
    ∀ (rows : List Row),
      (∀ a ∈ rows, f a = if Row.get a cid = Val.null then []
        else if keep (Row.get a cid) then [a ++ ext (Row.get a cid)] else []) →
      (rows.map f).flatten = selectExtend cid keep ext rows
  | [], _ => rfl
  | a :: rs, hf => by
    rw [List.map_cons, List.flatten_cons, selectExtend_cons,
      hf a (List.mem_cons_self _ _),
      flatten_map_eq_selectExtend rs (fun b hb => hf b (List.mem_cons_of_mem _ hb))]

theorem groupSummaryRow_get_cid (p : Preprocessing) (cid acol : String)
    (rows : List Row) (k : Val) :
    Row.get (p.groupSummaryRow cid acol rows k) cid = k := by
  simp [Preprocessing.groupSummaryRow, Row.get_cons]

theorem common_mem_iff {dfcols : List String} {cid acol' : String}
    (hdisj : ∀ c ∈ sumColNames acol', c ∉ dfcols) (c : String) :
    c ∈ dfcols.filter (fun c => decide (c ∈ (cid :: sumColNames acol')))
      ↔ (c ∈ dfcols ∧ c = cid) := by
  constructor
  · intro hc
    obtain ⟨hcdf, hcmem⟩ := List.mem_filter.mp hc
    refine ⟨hcdf, ?_⟩
    rcases List.mem_cons.mp (of_decide_eq_true hcmem) with h | h
    · exact h
    · exact absurd hcdf (hdisj c h)
  · rintro ⟨hcdf, rfl⟩
    exact List.mem_filter.mpr ⟨hcdf, by simp⟩

theorem rightOnly_filter_eq {dfcols : List String} {cid acol' : String}
    (hcid : cid ∈ dfcols) (hdisj : ∀ c ∈ sumColNames acol', c ∉ dfcols) :
    (cid :: sumColNames acol').filter
      (fun c => decide (c ∉ dfcols.filter
        (fun c => decide (c ∈ (cid :: sumColNames acol')))))
    = sumColNames acol' := by
  rw [List.filter_cons]
  have hin : cid ∈ dfcols.filter (fun c => decide (c ∈ (cid :: sumColNames acol'))) :=
    (common_mem_iff hdisj cid).mpr ⟨hcid, rfl⟩
  rw [if_neg (by simpa using hin)]
  refine List.filter_eq_self.mpr ?_
  intro c hc
  have : c ∉ dfcols.filter (fun c => decide (c ∈ (cid :: sumColNames acol'))) := by
    intro hmem
    have hceq := ((common_mem_iff hdisj c).mp hmem).2
    have hcdf := ((common_mem_iff hdisj c).mp hmem).1
    exact hdisj c hc (hceq ▸ hcdf)
  exact decide_eq_true this

theorem merged_rows_of_wf (p : Preprocessing) (ds : DataSource) (hwf : WF p ds) :
    (DF.merge (p.default_filter_chembl ds.bioactivities_df)
      (p.groupedSummaries ds.compound_id_column ds.activity_column
        (p.default_filter_chembl ds.bioactivities_df).rows)).rows
    = selectExtend ds.compound_id_column (fun _ => true)
        (fun k => p.mark_to_remove
          (groupRows ds.compound_id_column k
            (p.default_filter_chembl ds.bioactivities_df).rows)
          ds.activity_column)
        (p.default_filter_chembl ds.bioactivities_df).rows := by
  obtain ⟨-, hcid, hdisj, hacol, -⟩ := hwf
  have hcidsum : ds.compound_id_column ∉ sumColNames p.activity_column :=
    fun hm => hdisj _ hm hcid
  rw [merge_rows_def, default_filter_cols]
  rw [show (p.groupedSummaries ds.compound_id_column ds.activity_column
      (p.default_filter_chembl ds.bioactivities_df).rows).cols
    = ds.compound_id_column :: sumColNames p.activity_column from rfl]
  refine flatten_map_eq_selectExtend _ ?_
  intro a ha
  have hcommain : ds.compound_id_column ∈ ds.bioactivities_df.cols.filter
      (fun c => decide (c ∈ (ds.compound_id_column :: sumColNames p.activity_column))) :=
    (common_mem_iff hdisj _).mpr ⟨hcid, rfl⟩
  have hmatch : ∀ b, rowsMatch (ds.bioactivities_df.cols.filter
      (fun c => decide (c ∈ (ds.compound_id_column :: sumColNames p.activity_column)))) a b = true
      ↔ (Row.get a ds.compound_id_column = Row.get b ds.compound_id_column ∧
          Row.get a ds.compound_id_column ≠ Val.null) := by
    intro b
    rw [rowsMatch, List.all_eq_true]
    constructor
    · intro h
      have h' := h _ hcommain
      simpa [Bool.and_eq_true, beq_iff_eq, Bool.not_eq_true', beq_eq_false_iff_ne]
        using h'
    · rintro ⟨h1, h2⟩ c hc
      have hceq := ((common_mem_iff hdisj c).mp hc).2
      subst hceq
      have h2b : Row.get b ds.compound_id_column ≠ Val.null := h1 ▸ h2
      simp [h1, h2b]
  by_cases h1 : Row.get a ds.compound_id_column = Val.null
  · rw [if_pos h1]
    have hnil : ((p.groupedSummaries ds.compound_id_column ds.activity_column
        (p.default_filter_chembl ds.bioactivities_df).rows).rows).filter
        (fun b => rowsMatch (ds.bioactivities_df.cols.filter
          (fun c => decide (c ∈ (ds.compound_id_column :: sumColNames p.activity_column)))) a b)
        = [] := by
      refine List.filter_eq_nil_iff.mpr ?_
      intro b _ hb
      exact ((hmatch b).mp hb).2 h1
    rw [hnil]
    rfl
  · rw [if_neg h1, if_pos rfl]
    have hkmem : Row.get a ds.compound_id_column ∈
        groupKeys ds.compound_id_column (p.default_filter_chembl ds.bioactivities_df).rows := by
      unfold groupKeys
      refine List.mem_dedup.mpr (List.mem_filter.mpr ⟨?_, by simp [h1]⟩)
      exact List.mem_map_of_mem _ ha
    have hpt : ∀ k' ∈ groupKeys ds.compound_id_column
        (p.default_filter_chembl ds.bioactivities_df).rows,
        rowsMatch (ds.bioactivities_df.cols.filter
          (fun c => decide (c ∈ (ds.compound_id_column :: sumColNames p.activity_column)))) a
          (p.groupSummaryRow ds.compound_id_column ds.activity_column
            (p.default_filter_chembl ds.bioactivities_df).rows k')
        = (Row.get a ds.compound_id_column == k') := by
      intro k' _
      have hsg := groupSummaryRow_get_cid p ds.compound_id_column ds.activity_column
        (p.default_filter_chembl ds.bioactivities_df).rows k'
      rcases eq_or_ne (Row.get a ds.compound_id_column) k' with he | he
      · have hl : rowsMatch (ds.bioactivities_df.cols.filter
            (fun c => decide (c ∈ (ds.compound_id_column :: sumColNames p.activity_column)))) a
            (p.groupSummaryRow ds.compound_id_column ds.activity_column
              (p.default_filter_chembl ds.bioactivities_df).rows k') = true :=
          (hmatch _).mpr ⟨by rw [hsg, he], h1⟩
        rw [hl, he, beq_self_eq_true]
      · have hl : rowsMatch (ds.bioactivities_df.cols.filter
            (fun c => decide (c ∈ (ds.compound_id_column :: sumColNames p.activity_column)))) a
            (p.groupSummaryRow ds.compound_id_column ds.activity_column
              (p.default_filter_chembl ds.bioactivities_df).rows k') = false := by
          rw [Bool.eq_false_iff]
          intro hm
          exact he (((hmatch _).mp hm).1.trans hsg)
        rw [hl, beq_eq_false_iff_ne.mpr he]
    show ((p.groupedSummaries ds.compound_id_column ds.activity_column
        (p.default_filter_chembl ds.bioactivities_df).rows).rows.filter _).map _ = _
    rw [show (p.groupedSummaries ds.compound_id_column ds.activity_column
        (p.default_filter_chembl ds.bioactivities_df).rows).rows
      = (groupKeys ds.compound_id_column (p.default_filter_chembl ds.bioactivities_df).rows).map
          (p.groupSummaryRow ds.compound_id_column ds.activity_column
            (p.default_filter_chembl ds.bioactivities_df).rows) from rfl]
    rw [List.filter_map]
    simp only [Function.comp_def]
    have hnd : (groupKeys ds.compound_id_column
        (p.default_filter_chembl ds.bioactivities_df).rows).Nodup := by
      unfold groupKeys
      exact List.nodup_dedup _
    rw [List.filter_congr hpt, filter_beq_of_nodup hnd hkmem]
    simp only [List.map_cons, List.map_nil]
    rw [rightOnly_filter_eq hcid hdisj]
    rw [show p.groupSummaryRow ds.compound_id_column ds.activity_column
        (p.default_filter_chembl ds.bioactivities_df).rows (Row.get a ds.compound_id_column)
      = (ds.compound_id_column, Row.get a ds.compound_id_column) ::
          p.mark_to_remove (groupRows ds.compound_id_column (Row.get a ds.compound_id_column)
            (p.default_filter_chembl ds.bioactivities_df).rows) ds.activity_column from rfl]
    rw [restrictRow_summary p ds.compound_id_column _ _ ds.activity_column hacol hcidsum]

theorem merge_cols_of_wf (p : Preprocessing) (ds : DataSource) (hwf : WF p ds) :
    (DF.merge (p.default_filter_chembl ds.bioactivities_df)
      (p.groupedSummaries ds.compound_id_column ds.activity_column
        (p.default_filter_chembl ds.bioactivities_df).rows)).cols
    = ds.bioactivities_df.cols ++ sumColNames p.activity_column := by
  obtain ⟨-, hcid, hdisj, -, -⟩ := hwf
  rw [merge_cols_def, default_filter_cols]
  rw [show (p.groupedSummaries ds.compound_id_column ds.activity_column
      (p.default_filter_chembl ds.bioactivities_df).rows).cols
    = ds.compound_id_column :: sumColNames p.activity_column from rfl]
  rw [rightOnly_filter_eq hcid hdisj]

theorem selectExtend_filter_q (cid : String) (keep : Val → Bool) (ext : Val → Row)
    (q : Row → Bool) (qk : Val → Bool) :
    ∀ (rows : List Row),
      (∀ a ∈ rows, q (a ++ ext (Row.get a cid)) = qk (Row.get a cid)) →
      (selectExtend cid keep ext rows).filter q
        = selectExtend cid (fun k => keep k && qk k) ext rows
  | [], _ => rfl
  | a :: rs, hq => by
    have ih := selectExtend_filter_q cid keep ext q qk rs
      (fun b hb => hq b (List.mem_cons_of_mem _ hb))
    rw [selectExtend_cons, selectExtend_cons, List.filter_append, ih]
    congr 1
    by_cases h1 : Row.get a cid = Val.null
    · simp [h1]
    · rw [if_neg h1, if_neg h1]
      by_cases h2 : keep (Row.get a cid)
      · rw [if_pos h2]
        by_cases h3 : qk (Row.get a cid)
        · simp [List.filter_cons, hq a (List.mem_cons_self _ _), h2, h3]
        · simp [List.filter_cons, hq a (List.mem_cons_self _ _), h2, h3]
      · simp [h2]

theorem clean_dataset_of_wf (p : Preprocessing) (ds : DataSource) (hwf : WF p ds) :
    p.clean_dataset ds = Except.ok
      { cols := ds.bioactivities_df.cols ++ sumColNames p.activity_column,
        rows := headOne ds.compound_id_column
          (selectExtend ds.compound_id_column
            (fun k => !(decide (popVar (groupActivities ds.compound_id_column
              ds.activity_column (p.default_filter_chembl ds.bioactivities_df).rows k) > 1)))
            (fun k => p.mark_to_remove
              (groupRows ds.compound_id_column k
                (p.default_filter_chembl ds.bioactivities_df).rows)
              ds.activity_column)
            (p.default_filter_chembl ds.bioactivities_df).rows) } := by
  have hkind := hwf.1
  have hkeys := hwf.2.2.2.2
  have hdisj := hwf.2.2.1
  have hacol := hwf.2.2.2.1
  have hrows := merged_rows_of_wf p ds hwf
  have hcols := merge_cols_of_wf p ds hwf
  have hq : ∀ a ∈ (p.default_filter_chembl ds.bioactivities_df).rows,
      ((fun r => Row.get r "mark_to_remove" == Val.bool false)
        (a ++ (fun k => p.mark_to_remove
          (groupRows ds.compound_id_column k
            (p.default_filter_chembl ds.bioactivities_df).rows)
          ds.activity_column) (Row.get a ds.compound_id_column)))
      = (fun k => !(decide (popVar (groupActivities ds.compound_id_column
          ds.activity_column (p.default_filter_chembl ds.bioactivities_df).rows k) > 1)))
          (Row.get a ds.compound_id_column) := by
    intro a ha
    have hadf : a ∈ ds.bioactivities_df.rows := by
      rw [default_filter_rows] at ha
      exact List.mem_of_mem_filter ha
    have hmarknot : "mark_to_remove" ∉ a.map Prod.fst := by
      rw [hkeys a hadf]
      exact hdisj "mark_to_remove" (by simp [sumColNames])
    show (Row.get (a ++ p.mark_to_remove
        (groupRows ds.compound_id_column (Row.get a ds.compound_id_column)
          (p.default_filter_chembl ds.bioactivities_df).rows) ds.activity_column)
      "mark_to_remove" == Val.bool false) = _
    rw [Row.get_append_of_not_mem hmarknot, mark_get_mark p _ _ hacol]
    show (Val.bool (decide (popVar (groupActivities ds.compound_id_column
        ds.activity_column (p.default_filter_chembl ds.bioactivities_df).rows
        (Row.get a ds.compound_id_column)) > 1)) == Val.bool false) = _
    cases hb : decide (popVar (groupActivities ds.compound_id_column
        ds.activity_column (p.default_filter_chembl ds.bioactivities_df).rows
        (Row.get a ds.compound_id_column)) > 1) <;> simp [hb]
  simp only [Preprocessing.clean_dataset, hkind]
  rw [hcols, hrows, selectExtend_filter_q ds.compound_id_column (fun _ => true)
    (fun k => p.mark_to_remove
      (groupRows ds.compound_id_column k
        (p.default_filter_chembl ds.bioactivities_df).rows) ds.activity_column)
    (fun r => Row.get r "mark_to_remove" == Val.bool false)
    (fun k => !(decide (popVar (groupActivities ds.compound_id_column
      ds.activity_column (p.default_filter_chembl ds.bioactivities_df).rows k) > 1)))
    (p.default_filter_chembl ds.bioactivities_df).rows hq]
  simp only [Bool.true_and]

theorem clean_dataset_ok_inv (p : Preprocessing) (ds : DataSource) (out : DF)
    (hok : p.clean_dataset ds = Except.ok out) :
    ds.kind = SourceKind.chemblApi ∧
    out.rows = headOne ds.compound_id_column
      (((p.default_filter_chembl ds.bioactivities_df).merge
        (p.groupedSummaries ds.compound_id_column ds.activity_column
          (p.default_filter_chembl ds.bioactivities_df).rows)).rows.filter
        (fun r => Row.get r "mark_to_remove" == Val.bool false)) := by
  cases hk : ds.kind with
  | chemblApi =>
    refine ⟨rfl, ?_⟩
    simp only [Preprocessing.clean_dataset, hk] at hok
    cases hok
    rfl
  | unrecognized n =>
    simp only [Preprocessing.clean_dataset, hk] at hok
    exact absurd hok (by simp)

theorem headOne_count_of_mem (cid : String) (rows : List Row) (k : Val)
    (hk : k ∈ (headOne cid rows).map (fun r => Row.get r cid)) :
    (headOne cid rows).countP (fun r => Row.get r cid == k) = 1 := by
  obtain ⟨r, hr, hrk⟩ := List.mem_map.mp hk
  have hne : (headOne cid rows).filter (fun r => Row.get r cid == k) ≠ [] := by
    intro h
    have hmem : r ∈ (headOne cid rows).filter (fun r => Row.get r cid == k) :=
      List.mem_filter.mpr ⟨hr, by simp [hrk]⟩
    rw [h] at hmem
    simp at hmem
  have hknn : k ≠ Val.null := by
    intro he
    exact hne (headOneAux_filter_of_seen cid k [] rows (Or.inl he))
  have hfil := headOneAux_filter_of_new cid k hknn [] rows (by simp)
  rw [List.countP_eq_length_filter]
  rw [show headOne cid rows = headOneAux cid [] rows from rfl] at hne ⊢
  rw [hfil] at hne ⊢
  rw [List.length_take]
  have hlen : (rows.filter (fun r => Row.get r cid == k)).length ≠ 0 := by
    intro h0
    rw [List.length_eq_zero] at h0
    rw [h0] at hne
    exact hne rfl
  omega

/-! ### Claim theorems -/

/-- C7: `Preprocessing.clean_dataset` fails with the unsupported-source error
(and produces no clean table) exactly when the data source is not the ChEMBL
API variant. -/
theorem clean_dataset_unsupported_source (p : Preprocessing) (ds : DataSource) :
    (∃ msg, p.clean_dataset ds = Except.error msg) ↔
      ds.kind ≠ SourceKind.chemblApi := by
  cases hk : ds.kind with
  | chemblApi =>
    simp only [Preprocessing.clean_dataset, hk]
    constructor
    · rintro ⟨msg, hmsg⟩
      exact absurd hmsg (by simp)
    · intro h
      exact absurd rfl h
  | unrecognized n =>
    simp only [Preprocessing.clean_dataset, hk]
    constructor
    · intro _
      intro he
      exact SourceKind.noConfusion he
    · intro _
      exact ⟨"Data source not recognized", rfl⟩

/-- C5 counterexample: on the example source, cleaning succeeds but the clean
table's columns are not the input columns plus only the median column. -/
theorem clean_cols_counterexample :
    p0.clean_dataset ds0 = Except.ok clean0 ∧
    clean0.cols ≠ ds0.bioactivities_df.cols ++ [p0.activity_column] := by
  constructor
  · rfl
  · with_unfolding_all decide

/-- C5 amended: the clean table's columns are the input columns plus the five
summary columns `number_compounds`, `standard_deviation`, the median-activity
column (named by `activity_column`, default "median_activity_value"),
`duplicated` and `mark_to_remove`. -/
theorem clean_cols_of_wf (p : Preprocessing) (ds : DataSource) (out : DF)
    (hwf : WF p ds) (hok : p.clean_dataset ds = Except.ok out) :
    out.cols = ds.bioactivities_df.cols ++ sumColNames p.activity_column := by
  rw [clean_dataset_of_wf p ds hwf] at hok
  cases hok
  rfl

theorem clean_cols_witness :
    clean0.cols = ds0.bioactivities_df.cols ++ sumColNames p0.activity_column :=
  clean_cols_of_wf p0 ds0 clean0 (by decide) rfl

/-- C2: each compound identifier present in a clean table occurs in exactly
one of its rows. -/
theorem clean_unique_ids (p : Preprocessing) (ds : DataSource) (out : DF)
    (hok : p.clean_dataset ds = Except.ok out) (k : Val)
    (hk : k ∈ out.rows.map (fun r => Row.get r ds.compound_id_column)) :
    out.rows.countP (fun r => Row.get r ds.compound_id_column == k) = 1 := by
  obtain ⟨-, hrows⟩ := clean_dataset_ok_inv p ds out hok
  rw [hrows] at hk ⊢
  exact headOne_count_of_mem _ _ _ hk

theorem clean_unique_ids_witness :
    clean0.rows.countP
      (fun r => Row.get r ds0.compound_id_column == Val.str "CHEMBL_A") = 1 :=
  clean_unique_ids p0 ds0 clean0 rfl (Val.str "CHEMBL_A")
    (by with_unfolding_all decide)

/-- C3: a row survives the chembl filter iff its relation is "=", its
data-validity comment is null and its pchembl value is non-null; and every
row of a clean table has relation "=". -/
theorem chembl_filter_conjunction (p : Preprocessing) (df : DF) (r : Row)
    (ds : DataSource) (out : DF) (hok : p.clean_dataset ds = Except.ok out) :
    (r ∈ (p.default_filter_chembl df).rows ↔
      r ∈ df.rows ∧ Row.get r "relation" = Val.str "=" ∧
        Row.get r "data_validity_comment" = Val.null ∧
        Row.get r "pchembl_value" ≠ Val.null) ∧
    (∀ r' ∈ out.rows, Row.get r' "relation" = Val.str "=") := by
  constructor
  · rw [default_filter_rows, List.mem_filter]
    constructor
    · rintro ⟨hmem, hval⟩
      simp only [chemblValidRow, Bool.and_eq_true, beq_iff_eq, Bool.not_eq_true',
        beq_eq_false_iff_ne] at hval
      exact ⟨hmem, hval.2.2, hval.2.1, hval.1⟩
    · rintro ⟨hmem, h1, h2, h3⟩
      refine ⟨hmem, ?_⟩
      simp only [chemblValidRow, Bool.and_eq_true, beq_iff_eq, Bool.not_eq_true',
        beq_eq_false_iff_ne]
      exact ⟨h3, h2, h1⟩
  · intro r' hr'
    obtain ⟨-, hrows⟩ := clean_dataset_ok_inv p ds out hok
    rw [hrows] at hr'
    have hr2 := headOneAux_subset ds.compound_id_column [] _ r' hr'
    have hr3 := List.mem_of_mem_filter hr2
    rw [merge_rows_def] at hr3
    obtain ⟨l, hl, hrl⟩ := List.mem_flatten.mp hr3
    obtain ⟨a, ha, rfl⟩ := List.mem_map.mp hl
    obtain ⟨b, hb, rfl⟩ := List.mem_map.mp hrl
    rw [default_filter_rows] at ha
    have hav : chemblValidRow a = true := (List.mem_filter.mp ha).2
    have hrel : Row.get a "relation" = Val.str "=" := by
      simp only [chemblValidRow, Bool.and_eq_true, beq_iff_eq] at hav
      exact hav.2.2
    rw [Row.get_append_of_ne_null (by rw [hrel]; exact fun h => Val.noConfusion h) _,
      hrel]

theorem chembl_filter_conjunction_witness :
    (mkChemblRow "CHEMBL_C" "CCN" "<" Val.null (Val.num 7)
        ∈ (p0.default_filter_chembl df0).rows ↔
      mkChemblRow "CHEMBL_C" "CCN" "<" Val.null (Val.num 7) ∈ df0.rows ∧
        Row.get (mkChemblRow "CHEMBL_C" "CCN" "<" Val.null (Val.num 7)) "relation"
          = Val.str "=" ∧
        Row.get (mkChemblRow "CHEMBL_C" "CCN" "<" Val.null (Val.num 7))
          "data_validity_comment" = Val.null ∧
        Row.get (mkChemblRow "CHEMBL_C" "CCN" "<" Val.null (Val.num 7))
          "pchembl_value" ≠ Val.null) ∧
    (∀ r' ∈ clean0.rows, Row.get r' "relation" = Val.str "=") :=
  chembl_filter_conjunction p0 df0
    (mkChemblRow "CHEMBL_C" "CCN" "<" Val.null (Val.num 7)) ds0 clean0 rfl

/-- C1: for a group key `k` formed after the chembl filter, no row with that
key reaches the clean table when the group's squared deviation (population
variance, i.e. `np.std ** 2`) exceeds 1, and exactly one row with that key
reaches it otherwise (`np.std > 1` iff variance > 1, squaring being strictly
monotone on nonnegative reals). -/
theorem clean_group_threshold (p : Preprocessing) (ds : DataSource) (out : DF)
    (k : Val) (hwf : WF p ds) (hok : p.clean_dataset ds = Except.ok out)
    (hknn : k ≠ Val.null)
    (hmem : k ∈ (p.default_filter_chembl ds.bioactivities_df).rows.map
      (fun r => Row.get r ds.compound_id_column)) :
    out.rows.countP (fun r => Row.get r ds.compound_id_column == k)
      = if popVar (groupActivities ds.compound_id_column ds.activity_column
          (p.default_filter_chembl ds.bioactivities_df).rows k) > 1
        then 0 else 1 := by
  have hcid := hwf.2.1
  have hkeys := hwf.2.2.2.2
  rw [clean_dataset_of_wf p ds hwf] at hok
  cases hok
  have hkeyp : ∀ a ∈ (p.default_filter_chembl ds.bioactivities_df).rows,
      Row.get (a ++ (fun k' => p.mark_to_remove
        (groupRows ds.compound_id_column k'
          (p.default_filter_chembl ds.bioactivities_df).rows) ds.activity_column)
        (Row.get a ds.compound_id_column)) ds.compound_id_column
      = Row.get a ds.compound_id_column := by
    intro a ha
    have hadf : a ∈ ds.bioactivities_df.rows := by
      rw [default_filter_rows] at ha
      exact List.mem_of_mem_filter ha
    have hmemc : ds.compound_id_column ∈ a.map Prod.fst := by
      rw [hkeys a hadf]
      exact hcid
    exact Row.get_append_of_mem hmemc _
  rw [List.countP_eq_length_filter]
  rw [show headOne ds.compound_id_column
      (selectExtend ds.compound_id_column
        (fun k' => !(decide (popVar (groupActivities ds.compound_id_column
          ds.activity_column (p.default_filter_chembl ds.bioactivities_df).rows k') > 1)))
        (fun k' => p.mark_to_remove
          (groupRows ds.compound_id_column k'
            (p.default_filter_chembl ds.bioactivities_df).rows) ds.activity_column)
        (p.default_filter_chembl ds.bioactivities_df).rows)
    = headOneAux ds.compound_id_column []
      (selectExtend ds.compound_id_column
        (fun k' => !(decide (popVar (groupActivities ds.compound_id_column
          ds.activity_column (p.default_filter_chembl ds.bioactivities_df).rows k') > 1)))
        (fun k' => p.mark_to_remove
          (groupRows ds.compound_id_column k'
            (p.default_filter_chembl ds.bioactivities_df).rows) ds.activity_column)
        (p.default_filter_chembl ds.bioactivities_df).rows) from rfl]
  rw [headOneAux_filter_of_new ds.compound_id_column k hknn [] _ (by simp)]
  by_cases hvar : popVar (groupActivities ds.compound_id_column ds.activity_column
      (p.default_filter_chembl ds.bioactivities_df).rows k) > 1
  · rw [if_pos hvar]
    have hkeepf : (fun k' : Val => !(decide (popVar (groupActivities
        ds.compound_id_column ds.activity_column
        (p.default_filter_chembl ds.bioactivities_df).rows k') > 1))) k = false := by
      simp [hvar]
    rw [selectExtend_filter_of_not_keep (Or.inr hkeepf) _ hkeyp]
    rfl
  · rw [if_neg hvar]
    have hkeept : (fun k' : Val => !(decide (popVar (groupActivities
        ds.compound_id_column ds.activity_column
        (p.default_filter_chembl ds.bioactivities_df).rows k') > 1))) k = true := by
      simp [hvar]
    rw [selectExtend_filter_of_keep hknn hkeept _ hkeyp]
    obtain ⟨a, ha, hak⟩ := List.mem_map.mp hmem
    have hamem : a ∈ (p.default_filter_chembl ds.bioactivities_df).rows.filter
        (fun r => Row.get r ds.compound_id_column == k) :=
      List.mem_filter.mpr ⟨ha, by simp [hak]⟩
    have hpos : 0 < ((p.default_filter_chembl ds.bioactivities_df).rows.filter
        (fun r => Row.get r ds.compound_id_column == k)).length :=
      List.length_pos.mpr (List.ne_nil_of_mem hamem)
    rw [List.length_take, List.length_map]
    omega

theorem clean_group_threshold_witness :
    clean0.rows.countP
      (fun r => Row.get r ds0.compound_id_column == Val.str "CHEMBL_B") = 0 := by
  rw [clean_group_threshold p0 ds0 clean0 (Val.str "CHEMBL_B") (by decide) rfl
    (by decide) (by with_unfolding_all decide)]
  with_unfolding_all decide

/-- C4: for a retained group (variance at most 1), the single clean row with
that key is the first row of the group in original encounter order among the
filtered rows, extended with the group summary (the median is only reported
in the summary; the kept row is not the median-valued one). -/
theorem clean_first_representative (p : Preprocessing) (ds : DataSource)
    (out : DF) (k : Val) (a₀ : Row) (hwf : WF p ds)
    (hok : p.clean_dataset ds = Except.ok out) (hknn : k ≠ Val.null)
    (hfind : (p.default_filter_chembl ds.bioactivities_df).rows.find?
      (fun r => Row.get r ds.compound_id_column == k) = some a₀)
    (hvar : popVar (groupActivities ds.compound_id_column ds.activity_column
      (p.default_filter_chembl ds.bioactivities_df).rows k) ≤ 1) :
    out.rows.filter (fun r => Row.get r ds.compound_id_column == k)
      = [a₀ ++ p.mark_to_remove (groupRows ds.compound_id_column k
          (p.default_filter_chembl ds.bioactivities_df).rows)
          ds.activity_column] := by
  have hcid := hwf.2.1
  have hkeys := hwf.2.2.2.2
  rw [clean_dataset_of_wf p ds hwf] at hok
  cases hok
  have hkeyp : ∀ a ∈ (p.default_filter_chembl ds.bioactivities_df).rows,
      Row.get (a ++ (fun k' => p.mark_to_remove
        (groupRows ds.compound_id_column k'
          (p.default_filter_chembl ds.bioactivities_df).rows) ds.activity_column)
        (Row.get a ds.compound_id_column)) ds.compound_id_column
      = Row.get a ds.compound_id_column := by
    intro a ha
    have hadf : a ∈ ds.bioactivities_df.rows := by
      rw [default_filter_rows] at ha
      exact List.mem_of_mem_filter ha
    have hmemc : ds.compound_id_column ∈ a.map Prod.fst := by
      rw [hkeys a hadf]
      exact hcid
    exact Row.get_append_of_mem hmemc _
  have hkeept : (fun k' : Val => !(decide (popVar (groupActivities
      ds.compound_id_column ds.activity_column
      (p.default_filter_chembl ds.bioactivities_df).rows k') > 1))) k = true := by
    simp [not_lt.mpr hvar]
  show (headOneAux ds.compound_id_column [] _).filter _ = _
  rw [headOneAux_filter_of_new ds.compound_id_column k hknn [] _ (by simp),
    selectExtend_filter_of_keep hknn hkeept _ hkeyp,
    ← List.map_take, filter_take_one_of_find? hfind]
  rfl

theorem clean_first_representative_witness :
    clean0.rows.filter
        (fun r => Row.get r ds0.compound_id_column == Val.str "CHEMBL_A")
      = [mkChemblRow "CHEMBL_A" "CC" "=" Val.null (Val.num (26/5)) ++
          p0.mark_to_remove (groupRows ds0.compound_id_column (Val.str "CHEMBL_A")
            (p0.default_filter_chembl ds0.bioactivities_df).rows)
          ds0.activity_column] :=
  clean_first_representative p0 ds0 clean0 (Val.str "CHEMBL_A")
    (mkChemblRow "CHEMBL_A" "CC" "=" Val.null (Val.num (26/5)))
    (by decide) rfl (by decide)
    (by with_unfolding_all decide)
    (by with_unfolding_all decide)

/-- C10: a fetched record is retained in typed (one-row) form iff there are
accepted types and some accepted type, lower-cased, occurs as a substring of
the lower-cased reported measurement-type string; otherwise (in particular
for an absent measurement type) the record becomes a zero-row placeholder
frame that still carries the record's column names. -/
theorem get_compound_df_spec (standard_types : Option (List String))
    (compound_dict : CompoundDict) :
    ((get_compound_df standard_types compound_dict).rows ≠ [] ↔
      (∃ stl, standard_types = some stl ∧
        ∃ t, dictCell compound_dict "standard_type" = Val.str t ∧
          ∃ s ∈ stl, (s.toLower.toList) <:+: (t.toLower.toList))) ∧
    (isValidStdType standard_types (dictCell compound_dict "standard_type")
        = false →
      get_compound_df standard_types compound_dict
        = { cols := compound_dict.map (fun kv => kv.1), rows := [] }) := by
  have hvalid_iff : isValidStdType standard_types
      (dictCell compound_dict "standard_type") = true ↔
      (∃ stl, standard_types = some stl ∧
        ∃ t, dictCell compound_dict "standard_type" = Val.str t ∧
          ∃ s ∈ stl, (s.toLower.toList) <:+: (t.toLower.toList)) := by
    cases hst : standard_types with
    | none => simp [isValidStdType]
    | some stl =>
      cases hct : dictCell compound_dict "standard_type" with
      | str t => simp [isValidStdType, List.any_eq_true]
      | num q => simp [isValidStdType]
      | bool b => simp [isValidStdType]
      | null => simp [isValidStdType]
  constructor
  · rw [← hvalid_iff]
    by_cases hv : isValidStdType standard_types
        (dictCell compound_dict "standard_type") = true
    · simp only [hv, iff_true]
      simp only [get_compound_df, if_pos hv]
      split
      · simp
      · simp
    · have hv' : isValidStdType standard_types
          (dictCell compound_dict "standard_type") = false :=
        Bool.eq_false_iff.mpr hv
      simp [get_compound_df, hv']
  · intro hv
    simp [get_compound_df, hv]

theorem get_compound_df_witness :
    (get_compound_df (some ["IC50"]) dTyped).rows ≠ [] ∧
    get_compound_df (some ["IC50"]) dUntyped
      = { cols := dUntyped.map (fun kv => kv.1), rows := [] } := by
  constructor
  · exact (get_compound_df_spec (some ["IC50"]) dTyped).1.mpr
      ⟨["IC50"], rfl, "IC50_fold", rfl, "IC50", by simp, by with_unfolding_all decide⟩
  · exact (get_compound_df_spec (some ["IC50"]) dUntyped).2 (by decide)

/-- C8 counterexample: cleaning the example source keeps a row for group A,
but cleaning again with the cleaned table as the raw table yields an empty
table (the second merge joins on the five added summary columns as well, and
the stored group-of-3 summary does not match the freshly computed
group-of-1 summary), so cleaning is not idempotent. -/
theorem clean_not_idempotent :
    p0.clean_dataset ds0 = Except.ok clean0 ∧
    p0.clean_dataset ds0again = Except.ok clean0again ∧
    clean0.rows ≠ [] ∧ clean0again.rows = [] ∧ clean0again ≠ clean0 := by
  refine ⟨rfl, rfl, ?_, ?_, ?_⟩ <;> with_unfolding_all decide

theorem mark_to_remove_congr_single (p : Preprocessing) (r a : Row) (c : String)
    (h : Row.get r c = Row.get a c) :
    p.mark_to_remove [r] c = p.mark_to_remove [a] c := by
  simp [Preprocessing.mark_to_remove, h]

theorem filter_key_eq_singleton {cid : String} :
    ∀ {rows : List Row}, (rows.map (fun r => Row.get r cid)).Nodup →
      ∀ {r : Row}, r ∈ rows →
      rows.filter (fun x => Row.get x cid == Row.get r cid) = [r]
  | [], _, _, hr => by simp at hr
  | x :: rows, hnd, r, hr => by
    have hnd' := hnd
    rw [List.map_cons, List.nodup_cons] at hnd'
    rcases List.mem_cons.mp hr with he | he
    · subst he
      rw [List.filter_cons_of_pos (by simp)]
      have hnil : rows.filter (fun x => Row.get x cid == Row.get r cid) = [] := by
        refine List.filter_eq_nil_iff.mpr ?_
        intro y hy hbeq
        rw [beq_iff_eq] at hbeq
        exact hnd'.1 (hbeq ▸ List.mem_map_of_mem _ hy)
      rw [hnil]
    · have hne : Row.get x cid ≠ Row.get r cid := by
        intro he2
        exact hnd'.1 (he2 ▸ List.mem_map_of_mem _ he)
      rw [List.filter_cons_of_neg (by simp [hne])]
      exact filter_key_eq_singleton hnd'.2 he

/-- C8 amended: re-cleaning is the identity on a table in which every row is
a base row extended with exactly its own singleton-group summary (as the
first cleaning pass produces when every group has one member), every row
passes the chembl filter, and the compound keys are non-null and pairwise
distinct. -/
theorem clean_fixed_point (p : Preprocessing) (ds : DataSource)
    (base : List String)
    (hkind : ds.kind = SourceKind.chemblApi)
    (hcols : ds.bioactivities_df.cols = base ++ sumColNames p.activity_column)
    (hbase : base.filter (fun c => decide (c ∈
      (ds.compound_id_column :: sumColNames p.activity_column)))
      = [ds.compound_id_column])
    (hcidsum : ds.compound_id_column ∉ sumColNames p.activity_column)
    (hacol : p.activity_column ∉ ["number_compounds", "standard_deviation",
      "duplicated", "mark_to_remove"])
    (hacolIn : ds.activity_column ∈ base)
    (hshape : ∀ r ∈ ds.bioactivities_df.rows,
      singletonShaped p ds.activity_column base r = true)
    (hfilter : ∀ r ∈ ds.bioactivities_df.rows, chemblValidRow r = true)
    (hnodup : (ds.bioactivities_df.rows.map
      (fun r => Row.get r ds.compound_id_column)).Nodup)
    (hnn : ∀ r ∈ ds.bioactivities_df.rows,
      Row.get r ds.compound_id_column ≠ Val.null) :
    p.clean_dataset ds = Except.ok ds.bioactivities_df := by
  have hF : (p.default_filter_chembl ds.bioactivities_df).rows
      = ds.bioactivities_df.rows := by
    rw [default_filter_rows]
    exact List.filter_eq_self.mpr hfilter
  have hdec : ∀ r ∈ ds.bioactivities_df.rows,
      (r.take base.length).map Prod.fst = base ∧
      r = r.take base.length ++
        p.mark_to_remove [r.take base.length] ds.activity_column := by
    intro r hr
    have h := hshape r hr
    simp only [singletonShaped, Bool.and_eq_true, beq_iff_eq] at h
    exact h
  have hbs : ∀ c ∈ sumColNames p.activity_column, c ∉ base := by
    intro c hc hcb
    have hmem : c ∈ base.filter (fun c => decide (c ∈
        (ds.compound_id_column :: sumColNames p.activity_column))) :=
      List.mem_filter.mpr ⟨hcb, decide_eq_true (List.mem_cons_of_mem _ hc)⟩
    rw [hbase] at hmem
    have hceq : c = ds.compound_id_column := by simpa using hmem
    exact hcidsum (hceq ▸ hc)
  have hgetsum : ∀ r ∈ ds.bioactivities_df.rows,
      ∀ c ∈ sumColNames p.activity_column,
      Row.get r c = Row.get (p.mark_to_remove [r.take base.length]
        ds.activity_column) c := by
    intro r hr c hc
    obtain ⟨hkeys_a, hre⟩ := hdec r hr
    conv_lhs => rw [hre]
    rw [Row.get_append_of_not_mem (by rw [hkeys_a]; exact hbs c hc) _]
  have hgact : ∀ r ∈ ds.bioactivities_df.rows,
      Row.get r ds.activity_column
        = Row.get (r.take base.length) ds.activity_column := by
    intro r hr
    obtain ⟨hkeys_a, hre⟩ := hdec r hr
    conv_lhs => rw [hre]
    exact Row.get_append_of_mem (by rw [hkeys_a]; exact hacolIn) _
  have hfresh : ∀ r ∈ ds.bioactivities_df.rows,
      p.mark_to_remove [r] ds.activity_column
        = p.mark_to_remove [r.take base.length] ds.activity_column := by
    intro r hr
    exact mark_to_remove_congr_single p r _ _ (hgact r hr)
  have hGK : groupKeys ds.compound_id_column ds.bioactivities_df.rows
      = ds.bioactivities_df.rows.map (fun r => Row.get r ds.compound_id_column) := by
    unfold groupKeys
    have h1 : ((ds.bioactivities_df.rows.map
        (fun r => Row.get r ds.compound_id_column)).filter
        (fun v => decide (v ≠ Val.null)))
        = ds.bioactivities_df.rows.map (fun r => Row.get r ds.compound_id_column) := by
      refine List.filter_eq_self.mpr ?_
      intro v hv
      obtain ⟨r, hr, rfl⟩ := List.mem_map.mp hv
      exact decide_eq_true (hnn r hr)
    rw [h1, List.dedup_eq_self.mpr hnodup]
  have hGR : ∀ r ∈ ds.bioactivities_df.rows,
      groupRows ds.compound_id_column (Row.get r ds.compound_id_column)
        ds.bioactivities_df.rows = [r] := by
    intro r hr
    exact filter_key_eq_singleton hnodup hr
  have hcommon : ds.bioactivities_df.cols.filter
      (fun c => decide (c ∈
        (ds.compound_id_column :: sumColNames p.activity_column)))
      = ds.compound_id_column :: sumColNames p.activity_column := by
    rw [hcols, List.filter_append, hbase,
      List.filter_eq_self.mpr
        (fun c hc => decide_eq_true (List.mem_cons_of_mem _ hc))]
    rfl
  have hmatch : ∀ r ∈ ds.bioactivities_df.rows, ∀ k',
      rowsMatch (ds.compound_id_column :: sumColNames p.activity_column) r
        (p.groupSummaryRow ds.compound_id_column ds.activity_column
          ds.bioactivities_df.rows k')
      = (Row.get r ds.compound_id_column == k') := by
    intro r hr k'
    rcases eq_or_ne (Row.get r ds.compound_id_column) k' with he | he
    · subst he
      rw [beq_self_eq_true]
      refine List.all_eq_true.mpr ?_
      intro c hc
      rcases List.mem_cons.mp hc with hceq | hcs
      · subst hceq
        rw [groupSummaryRow_get_cid]
        simp [hnn r hr]
      · have hcidne : ds.compound_id_column ≠ c := by
          intro h
          exact hcidsum (h ▸ hcs)
        have hsr : Row.get (p.groupSummaryRow ds.compound_id_column
            ds.activity_column ds.bioactivities_df.rows
            (Row.get r ds.compound_id_column)) c
            = Row.get (p.mark_to_remove [r.take base.length]
                ds.activity_column) c := by
          show Row.get ((ds.compound_id_column, Row.get r ds.compound_id_column) ::
            p.mark_to_remove (groupRows ds.compound_id_column
              (Row.get r ds.compound_id_column) ds.bioactivities_df.rows)
              ds.activity_column) c = _
          rw [Row.get_cons, if_neg hcidne, hGR r hr, hfresh r hr]
        rw [hsr, ← hgetsum r hr c hcs]
        have hnncell : Row.get r c ≠ Val.null := by
          rw [hgetsum r hr c hcs]
          exact mark_get_ne_null p _ _ hacol c hcs
        simp [hnncell]
    · rw [beq_eq_false_iff_ne.mpr he]
      apply Bool.eq_false_iff.mpr
      intro hm
      rw [rowsMatch, List.all_eq_true] at hm
      have hcid := hm ds.compound_id_column (List.mem_cons_self _ _)
      rw [groupSummaryRow_get_cid] at hcid
      simp only [Bool.and_eq_true, beq_iff_eq] at hcid
      exact he hcid.1
  simp only [Preprocessing.clean_dataset, hkind]
  rw [merge_rows_def, merge_cols_def, default_filter_cols, hF]
  rw [show (p.groupedSummaries ds.compound_id_column ds.activity_column
      ds.bioactivities_df.rows).cols
    = ds.compound_id_column :: sumColNames p.activity_column from rfl]
  rw [hcommon]
  have hro : (ds.compound_id_column :: sumColNames p.activity_column).filter
      (fun c => decide (c ∉
        (ds.compound_id_column :: sumColNames p.activity_column))) = [] := by
    refine List.filter_eq_nil_iff.mpr ?_
    intro c hc
    simp [hc]
  rw [hro]
  have hfrow : ∀ r ∈ ds.bioactivities_df.rows,
      (((p.groupedSummaries ds.compound_id_column ds.activity_column
        ds.bioactivities_df.rows).rows.filter
        (fun b => rowsMatch
          (ds.compound_id_column :: sumColNames p.activity_column) r b)).map
        (fun b => r ++ restrictRow [] b)) = [r] := by
    intro r hr
    rw [show (p.groupedSummaries ds.compound_id_column ds.activity_column
        ds.bioactivities_df.rows).rows
      = (groupKeys ds.compound_id_column ds.bioactivities_df.rows).map
          (p.groupSummaryRow ds.compound_id_column ds.activity_column
            ds.bioactivities_df.rows) from rfl]
    rw [hGK, List.filter_map]
    simp only [Function.comp_def]
    rw [List.filter_congr (fun k' _ => hmatch r hr k'),
      filter_beq_of_nodup hnodup (List.mem_map_of_mem _ hr)]
    simp [restrictRow]
  rw [List.map_congr_left hfrow, flatten_map_singleton]
  have hkept : ds.bioactivities_df.rows.filter
      (fun r => Row.get r "mark_to_remove" == Val.bool false)
      = ds.bioactivities_df.rows := by
    refine List.filter_eq_self.mpr ?_
    intro r hr
    have h1 := hgetsum r hr "mark_to_remove" (by simp [sumColNames])
    rw [h1, mark_get_mark p _ _ hacol]
    rw [show ([r.take base.length].map
        (fun x => (Row.get x ds.activity_column).toRat))
      = [(Row.get (r.take base.length) ds.activity_column).toRat] from rfl]
    rw [popVar_singleton]
    simp
  rw [hkept]
  rw [show headOne ds.compound_id_column ds.bioactivities_df.rows
    = headOneAux ds.compound_id_column [] ds.bioactivities_df.rows from rfl]
  rw [headOneAux_eq_self ds.compound_id_column [] ds.bioactivities_df.rows
    hnn hnodup (by intro r hr; simp)]
  rw [List.append_nil]

theorem clean_fixed_point_witness :
    p0.clean_dataset dsFix = Except.ok dsFix.bioactivities_df :=
  clean_fixed_point p0 dsFix chemblCols rfl rfl
    (by with_unfolding_all decide) (by decide) (by decide) (by decide)
    (by with_unfolding_all decide) (by with_unfolding_all decide)
    (by with_unfolding_all decide) (by with_unfolding_all decide)
